import Mathlib

/-!
Verification development for the PAI-Notifier acquisition pipeline.

The JavaScript source (src/scraper.js, src/examMonitor.js, src/storage.js) is
shallowly embedded below: HTML documents are modelled by the lists of anchors /
table rows the cheerio selectors would produce, machine time is an integer count
of milliseconds (JS `Date.now()`), and the regular-expression matches are
implemented with the exact leftmost-match / greedy-with-backtracking semantics
of the JS patterns involved.
-/

namespace PAI

/-! ## Generic string helpers -/

/-- `startsWithL hay pat`: `pat` is a prefix of `hay` (character lists). -/
def startsWithL : List Char → List Char → Bool
  | _, [] => true
  | [], _ :: _ => false
  | h :: hs, p :: ps => h = p && startsWithL hs ps

/-- `occursIn hay pat`: `pat` occurs as a contiguous substring of `hay`
(JS `String.prototype.includes`). -/
def occursIn : List Char → List Char → Bool
  | [], pat => pat.isEmpty
  | h :: t, pat => startsWithL (h :: t) pat || occursIn t pat

/-- Lower-case a string character-wise (JS `toLowerCase`, ASCII fragment). -/
def lowerStr (s : String) : String := String.mk (s.data.map Char.toLower)

/-- JS `String.prototype.trim` (ASCII whitespace fragment): drop whitespace
from both ends. -/
def trimStr (s : String) : String :=
  String.mk (((s.data.dropWhile Char.isWhitespace).reverse.dropWhile Char.isWhitespace).reverse)

/-- Value of a digit string (what JS `parseInt` returns on an all-digit string). -/
def digitsToNat (l : List Char) : Nat :=
  l.foldl (fun n c => n * 10 + (c.toNat - '0'.toNat)) 0

/-! ## Session store (src/examMonitor.js lines 12-123)

`userSessions` is a `Map<userId, {cookie, expiry}>`; we model it as an
association list threaded through the operations.  Times are milliseconds. -/

structure Session where
  cookie : String
  expiry : Int
deriving DecidableEq, Repr

/-- `Map.get` on the per-user session map. -/
def lookupS : List (String × Session) → String → Option Session
  | [], _ => none
  | (k, s) :: rest, uid => if k = uid then some s else lookupS rest uid

/-- `Map.set` on the per-user session map (overwrite or append). -/
def setS : List (String × Session) → String → Session → List (String × Session)
  | [], uid, sess => [(uid, sess)]
  | (k, s) :: rest, uid, sess =>
      if k = uid then (uid, sess) :: rest else (k, s) :: setS rest uid sess

/-- `Map.delete` on the per-user session map. -/
def delS (store : List (String × Session)) (uid : String) : List (String × Session) :=
  store.filter (fun p => p.1 ≠ uid)

/-- `isSessionValid` (examMonitor.js 85-90): a stored session is valid while
`now < expiry - 5 minutes` (milliseconds). -/
def isSessionValid (store : List (String × Session)) (uid : String) (now : Int) : Bool :=
  match lookupS store uid with
  | none => false
  | some s => decide (now < s.expiry - 5 * 60 * 1000)

/-! ## News scraper (src/scraper.js) -/

/-- One `<a>` element as cheerio exposes it: `href` attribute and visible text. -/
structure Anchor where
  href : String
  text : String
deriving DecidableEq, Repr

structure Article where
  id : String
  title : String
  url : String
deriving DecidableEq, Repr

/-- The literal part of the pattern `/\/page\/news_detail\/(\d+)\//`. -/
def newsDetailLit : List Char := "/page/news_detail/".toList

/-- Try the news-detail pattern anchored at the head of `l`: the literal,
then one-or-more digits (greedy), then a slash.  Returns the captured digits. -/
def newsIdAt (l : List Char) : Option (List Char) :=
  if startsWithL l newsDetailLit then
    let rest := l.drop newsDetailLit.length
    let ds := rest.takeWhile Char.isDigit
    if ds ≠ [] ∧ (rest.drop ds.length).head? = some '/' then some ds else none
  else none

/-- Leftmost match of `/\/page\/news_detail\/(\d+)\//` over the whole string. -/
def newsId : List Char → Option (List Char)
  | [] => none
  | h :: t =>
    match newsIdAt (h :: t) with
    | some ds => some ds
    | none => newsId t

/-- Absolute URL construction in `parseArticles`. -/
def mkArticleUrl (href : String) : String :=
  if startsWithL href.toList "http".toList then href else "https://www.aktuaris.or.id" ++ href

/-- `Map.set`-if-absent on the article map (keyed by the string id, first
occurrence wins, insertion order preserved). -/
def insertArticle (m : List Article) (a : Article) : List Article :=
  if m.any (fun b => b.id == a.id) then m else m ++ [a]

/-- One iteration of the anchor loop of `parseArticles` (scraper.js 59-78). -/
def collectStep (m : List Article) (el : Anchor) : List Article :=
  let text := trimStr el.text
  match newsId el.href.toList with
  | some ds =>
      if text ≠ "" then
        insertArticle m { id := String.mk ds, title := text, url := mkArticleUrl el.href }
      else m
  | none => m

/-- The accumulation loop of `parseArticles` (scraper.js 59-78). -/
def collectArticles (anchors : List Anchor) : List Article :=
  anchors.foldl collectStep []

/-- `parseInt(article.id)`: ids are always digit strings here. -/
def numId (a : Article) : Nat := digitsToNat a.id.toList

/-- Stable insertion used to model the JS stable `sort((a,b) => parseInt(b.id) - parseInt(a.id))`:
`a` is placed before the first element whose numeric id is not greater,
so ties keep input order. -/
def insDesc (a : Article) : List Article → List Article
  | [] => [a]
  | b :: bs => if numId a < numId b then b :: insDesc a bs else a :: b :: bs

/-- Stable descending sort by numeric id. -/
def sortDesc : List Article → List Article
  | [] => []
  | a :: rest => insDesc a (sortDesc rest)

/-- `parseArticles` (scraper.js 54-83): collect into an id-keyed map, then sort
descending by numeric id. -/
def parseArticles (anchors : List Anchor) : List Article :=
  sortDesc (collectArticles anchors)

/-- `getNewArticles` (storage.js): current articles whose id is not in the seen set. -/
def getNewArticles (current : List Article) (seen : List String) : List Article :=
  current.filter (fun a => !(seen.contains a.id))

/-! ## Authenticator: cookie extraction (examMonitor.js 60-78) -/

/-- The literal of the pattern `/ci_session=([^;]+)/`. -/
def ciSessionLit : List Char := "ci_session=".toList

/-- Try `/ci_session=([^;]+)/` anchored at the head of `l`: the literal, then a
greedy non-empty run of non-semicolon characters. -/
def ciSessionAt (l : List Char) : Option (List Char) :=
  if startsWithL l ciSessionLit then
    let v := (l.drop ciSessionLit.length).takeWhile (fun c => c ≠ ';')
    if v.isEmpty then none else some v
  else none

/-- Leftmost match of `/ci_session=([^;]+)/` in a header value. -/
def ciSessionFind : List Char → Option (List Char)
  | [] => none
  | h :: t =>
    match ciSessionAt (h :: t) with
    | some v => some v
    | none => ciSessionFind t

/-- An HTTP response as `extractSessionFromResponse` sees it: the
`set-cookie` header, absent or a list of header values. -/
structure Response where
  setCookie : Option (List String)
deriving Repr

/-- The `for (const cookie of cookies)` loop body of
`extractSessionFromResponse`: a header value yields a session only if it starts
with `ci_session=` and the regex then captures a non-empty value; otherwise the
loop moves on to the next header value. -/
def extractLoop (cookies : List String) (now : Int) : Option Session :=
  match cookies with
  | [] => none
  | c :: rest =>
    if startsWithL c.toList ciSessionLit then
      match ciSessionFind c.toList with
      | some v => some { cookie := String.mk v, expiry := now + 36000 * 1000 }
      | none => extractLoop rest now
    else extractLoop rest now

/-- `extractSessionFromResponse` (examMonitor.js 60-78). -/
def extractSessionFromResponse (resp : Response) (now : Int) : Option Session :=
  match resp.setCookie with
  | some cookies => extractLoop cookies now
  | none => none

/-- What one header value contributes, used to state the first-match-wins
specification the code is compared against. -/
def cookieValueOf (c : String) : Option String :=
  if startsWithL c.toList ciSessionLit then (ciSessionFind c.toList).map String.mk else none

/-! ## Login and exam-page fetch outcomes (examMonitor.js 21-55, 130-156)

The axios exchange is abstracted by its observable outcome: the promise either
resolves with a response, rejects with an error that carries a response
(e.g. the un-followed 302), or rejects with a transport error (no response). -/

inductive LoginHttp where
  | ok (resp : Response)
  | errResp (resp : Response)
  | transport
deriving Repr

/-- `login` (examMonitor.js 21-55): extract the session from the resolved
response, or from the error's response, and return null on transport errors. -/
def login (h : LoginHttp) (now : Int) : Option Session :=
  match h with
  | .ok r => extractSessionFromResponse r now
  | .errResp r =>
    match extractSessionFromResponse r now with
    | some s => some s
    | none => none
  | .transport => none

/-! ## Exam table parsing (examMonitor.js 163-212) -/

structure Link where
  text : String
  href : Option String
deriving DecidableEq, Repr

/-- One `<td>` cell: its text content and the `<a>` elements inside it. -/
structure Cell where
  text : String
  links : List Link
deriving DecidableEq, Repr

/-- A table row, as the list of its `<td>` cells. -/
abbrev Row := List Cell

structure ExamAction where
  text : String
  link : Option String
deriving DecidableEq, Repr

structure Exam where
  kode : String
  periode : String
  kota : String
  hasilText : String
  hasilLink : Option String
  status : String
  actions : List ExamAction
deriving DecidableEq, Repr

def emptyCell : Cell := { text := "", links := [] }

def cellAt (cells : Row) (i : Nat) : Cell := cells.getD i emptyCell

/-- `$(cells[3]).find('a').attr('href') || null`: the first link's href, with
a missing attribute or an empty string both collapsing to null. -/
def hasilLinkOf (c : Cell) : Option String :=
  match c.links.head? with
  | some l =>
    match l.href with
    | some h => if h = "" then none else some h
    | none => none
  | none => none

/-- The fixed action-label denylist. -/
def excludeActions : List String := ["detail", "cetak undangan", "cetak kartu ujian"]

/-- The per-link filter of the actions column: keep a link unless its trimmed,
lower-cased label contains one of the denylisted substrings. -/
def actionOf (l : Link) : Option ExamAction :=
  if excludeActions.any (fun ex => occursIn (lowerStr (trimStr l.text)).toList ex.toList) then
    none
  else some { text := trimStr l.text, link := l.href }

/-- The body of the row loop in `parseExamTable`: rows with fewer than 6 cells
are skipped, and a built record is kept only when its (trimmed) first-column
code is non-empty and differs from the header literal `KODE`. -/
def rowToExam (cells : Row) : Option Exam :=
  if 6 ≤ cells.length then
    if trimStr (cellAt cells 0).text ≠ "" ∧ trimStr (cellAt cells 0).text ≠ "KODE" then
      some
        { kode := trimStr (cellAt cells 0).text
          periode := trimStr (cellAt cells 1).text
          kota := trimStr (cellAt cells 2).text
          hasilText := trimStr (cellAt cells 3).text
          hasilLink := hasilLinkOf (cellAt cells 3)
          status := trimStr (cellAt cells 4).text
          actions := (cellAt cells 5).links.filterMap actionOf }
    else none
  else none

/-- `parseExamTable` (examMonitor.js 163-212), on the rows of the first
`table.table` element (no table at all is the empty row list). -/
def parseExamTable (rows : List Row) : List Exam :=
  rows.filterMap rowToExam

/-! ## Exam page fetch (examMonitor.js 130-156)

The GET follows redirects; its outcome is either a final response (resolved
URL plus the page body, modelled as the table rows the HTML contains) or a
transport error. -/

inductive FetchHttp where
  | ok (finalUrl : Option String) (body : List Row)
  | transport
deriving Repr

/-- `fetchExamPage`: null when redirected to the login page, null on transport
errors, the page body otherwise. -/
def fetchExamPage (h : FetchHttp) : Option (List Row) :=
  match h with
  | .ok finalUrl body =>
    match finalUrl with
    | some u => if occursIn u.toList "/page/login".toList then none else some body
    | none => some body
  | .transport => none

/-! ## `fetchExamListForUser` (examMonitor.js 99-123, 221-248)

The network is abstracted by an environment giving the outcome of the n-th
`login` call and the outcome of the n-th `fetchExamPage` call; the session map
and the two call counters are threaded explicitly. -/

structure MonEnv where
  loginOut : Nat → Option Session
  fetchOut : Nat → Option (List Row)

structure MonSt where
  store : List (String × Session)
  logins : Nat
  fetches : Nat
deriving Repr

def loginCall (env : MonEnv) (st : MonSt) : Option Session × MonSt :=
  (env.loginOut st.logins, { st with logins := st.logins + 1 })

def fetchPageCall (env : MonEnv) (st : MonSt) : Option (List Row) × MonSt :=
  (env.fetchOut st.fetches, { st with fetches := st.fetches + 1 })

/-- `getSession` (examMonitor.js 99-115): reuse a valid stored session,
otherwise log in once and store the result. -/
def getSessionM (env : MonEnv) (now : Int) (uid : String) (st : MonSt) :
    Option String × MonSt :=
  if isSessionValid st.store uid now then
    ((lookupS st.store uid).map Session.cookie, st)
  else
    let p := loginCall env st
    match p.1 with
    | some sess => (some sess.cookie, { p.2 with store := setS p.2.store uid sess })
    | none => (none, p.2)

/-- `clearSession` (examMonitor.js 121-123). -/
def clearSessionM (uid : String) (st : MonSt) : MonSt :=
  { st with store := delS st.store uid }

/-- `fetchExamListForUser` (examMonitor.js 221-248): obtain a session, fetch the
page; on a null page clear the session, re-authenticate once and retry the
fetch exactly once. -/
def fetchExamListForUserM (env : MonEnv) (now : Int) (uid : String) (st : MonSt) :
    Option (List Exam) × MonSt :=
  let g := getSessionM env now uid st
  match g.1 with
  | none => (none, g.2)
  | some _ =>
    let f := fetchPageCall env g.2
    match f.1 with
    | some html => (some (parseExamTable html), f.2)
    | none =>
      let st3 := clearSessionM uid f.2
      let g2 := getSessionM env now uid st3
      match g2.1 with
      | none => (none, g2.2)
      | some _ =>
        let f2 := fetchPageCall env g2.2
        match f2.1 with
        | none => (none, f2.2)
        | some html2 => (some (parseExamTable html2), f2.2)

/-! ## Full backfill (scraper.js 90-136) -/

def newsBaseUrl : String := "https://www.aktuaris.or.id/page/news_nextpage/"

/-- `fetchNewsPage` URL construction (scraper.js 13-14). -/
def newsPageUrl (offset : Nat) : String :=
  if offset = 0 then newsBaseUrl else newsBaseUrl ++ toString offset

def MAX_OFFSET : Nat := 260
def PAGE_STEP : Nat := 5

/-- The offsets visited by `for (let offset = 0; offset <= MAX_OFFSET; offset += PAGE_STEP)`. -/
def offsets : List Nat :=
  (List.range (MAX_OFFSET / PAGE_STEP + 1)).map (fun i => i * PAGE_STEP)

/-- One iteration of the backfill loop: `fetchNewsPage` is called (counted)
for the offset; on success the parsed articles are merged first-occurrence-wins
into the global map, on failure the page is skipped. -/
def scrapeStep (fetch : Nat → Option (List Anchor)) (acc : List Article × Nat)
    (offset : Nat) : List Article × Nat :=
  match fetch offset with
  | some page => ((parseArticles page).foldl insertArticle acc.1, acc.2 + 1)
  | none => (acc.1, acc.2 + 1)

/-- `scrapeArticles(true)` (scraper.js 90-136), abstracting the network by the
page each offset's fetch yields (`none` = the fetch threw); returns the final
sorted article list together with the number of page fetches issued. -/
def scrapeAll (fetch : Nat → Option (List Anchor)) : List Article × Nat :=
  let acc := offsets.foldl (scrapeStep fetch) ([], 0)
  (sortDesc acc.1, acc.2)

/-! ## Document result extraction (examMonitor.js 336-358)

The text stage of `fetchExamResultPdf`: the two JS regular expressions are
implemented with their leftmost-match, greedy-with-backtracking semantics.
Scores are exact rationals (`parseFloat` of the `[\d.]+` capture; an
unparsable capture such as `"."` is NaN, modelled as `none`). -/

/-- `\w` (ASCII). -/
def isWordC (c : Char) : Bool := c.isAlphanum || c = '_'

/-- The class `[\w\-]`. -/
def isWD (c : Char) : Bool := isWordC c || c = '-'

/-- `\s` (ASCII fragment). -/
def isSpaceC (c : Char) : Bool := c.isWhitespace

/-- The class `[\w\s\-]`. -/
def isWSD (c : Char) : Bool := isWD c || isSpaceC c

/-- The class `[A-Z0-9]` under the `i` flag. -/
def isAlnumC (c : Char) : Bool := c.isAlphanum

/-- The class `[\d.]`. -/
def isDD (c : Char) : Bool := c.isDigit || c = '.'

/-- `parseFloat` on a `[\d.]+` capture: longest numeric prefix
`digits [ '.' digits ]`; no digit at all is NaN (`none`). -/
def parseFloatDD (l : List Char) : Option Rat :=
  let intPart := l.takeWhile Char.isDigit
  match l.drop intPart.length with
  | '.' :: r2 =>
    let frac := r2.takeWhile Char.isDigit
    if intPart.isEmpty ∧ frac.isEmpty then none
    else some ((digitsToNat intPart : Rat) + (digitsToNat frac : Rat) / (10 ^ frac.length))
  | _ => if intPart.isEmpty then none else some (digitsToNat intPart : Rat)

/-- The fixed tail of `/([\w\-]+[\w\s\-]+)\s*\(([A-Z0-9]+)\)\s*=\s*([\d.]+)/i`
after group 1: `\s* '(' ([A-Z0-9]+) ')' \s* '=' \s* ([\d.]+)`.  Each greedy run
here is followed by a character outside its class, so maximal runs are exact. -/
def scoreTail (l : List Char) : Option (List Char × List Char) :=
  match l.dropWhile isSpaceC with
  | '(' :: r =>
    let code := r.takeWhile isAlnumC
    if code.isEmpty then none else
    match r.drop code.length with
    | ')' :: r2 =>
      (match (r2.dropWhile isSpaceC) with
       | '=' :: r4 =>
         let num := (r4.dropWhile isSpaceC).takeWhile isDD
         if num.isEmpty then none else some (code, num)
       | _ => none)
    | _ => none
  | _ => none

/-- Backtracking over the length of the `[\w\s\-]+` part of group 1, longest
first, as the JS engine does. -/
def tryScoreK2 (pre rest1 : List Char) : Nat → Option (List Char × List Char × List Char)
  | 0 => none
  | k + 1 =>
    match scoreTail (rest1.drop (k + 1)) with
    | some cn => some (pre ++ rest1.take (k + 1), cn.1, cn.2)
    | none => tryScoreK2 pre rest1 k

/-- Backtracking over the length of the `[\w\-]+` part of group 1, longest
first; for each choice the second part is tried longest first. -/
def tryScoreK1 (l : List Char) : Nat → Option (List Char × List Char × List Char)
  | 0 => none
  | k + 1 =>
    let rest1 := l.drop (k + 1)
    match tryScoreK2 (l.take (k + 1)) rest1 (rest1.takeWhile isWSD).length with
    | some res => some res
    | none => tryScoreK1 l k

/-- The score pattern anchored at the head of `l`. -/
def matchScoreAt (l : List Char) : Option (List Char × List Char × List Char) :=
  tryScoreK1 l (l.takeWhile isWD).length

/-- Leftmost match of the score pattern; yields (group1, code, number). -/
def matchScore : List Char → Option (List Char × List Char × List Char)
  | [] => none
  | h :: t =>
    match matchScoreAt (h :: t) with
    | some r => some r
    | none => matchScore t

/-- Case-insensitive literal comparison (the `i` flag on a literal). -/
def startsWithCI : List Char → List Char → Bool
  | _, [] => true
  | [], _ :: _ => false
  | c :: cs, p :: ps => c.toLower = p.toLower && startsWithCI cs ps

/-- The class `[IVX]` under the `i` flag. -/
def isIVX (c : Char) : Bool :=
  let d := c.toLower
  d = 'i' || d = 'v' || d = 'x'

/-- `/Periode\s+([IVX]+)\s+Tahun\s+(\d{4})/i` anchored at the head of `l`.
Adjacent classes are disjoint, so greedy maximal runs are exact. -/
def matchPeriodeAt (l : List Char) : Option (List Char × List Char) :=
  if startsWithCI l "Periode".toList then
    let a := l.drop 7
    let sp1 := a.takeWhile isSpaceC
    if sp1.isEmpty then none else
    let b := a.drop sp1.length
    let rom := b.takeWhile isIVX
    if rom.isEmpty then none else
    let c := b.drop rom.length
    let sp2 := c.takeWhile isSpaceC
    if sp2.isEmpty then none else
    let d := c.drop sp2.length
    if startsWithCI d "Tahun".toList then
      let e := d.drop 5
      let sp3 := e.takeWhile isSpaceC
      if sp3.isEmpty then none else
      let f := e.drop sp3.length
      let yr := f.take 4
      if yr.length = 4 ∧ yr.all Char.isDigit then some (rom, yr) else none
    else none
  else none

/-- Leftmost match of the period pattern; yields (roman numeral, year). -/
def matchPeriode : List Char → Option (List Char × List Char)
  | [] => none
  | h :: t =>
    match matchPeriodeAt (h :: t) with
    | some r => some r
    | none => matchPeriode t

structure ExamResult where
  rawText : String
  subject : Option String
  subjectCode : Option String
  score : Option Rat
  passed : Option Bool
  periode : Option String
deriving DecidableEq, Repr

/-- `result.score >= 70` in JS: false when the score is NaN. -/
def scoreGE70 : Option Rat → Bool
  | some q => decide (70 ≤ q)
  | none => false

/-- The parsing stage of `fetchExamResultPdf` (examMonitor.js 336-358), from
the extracted document text. -/
def extractExamResult (text : String) : ExamResult :=
  let base : ExamResult :=
    { rawText := text, subject := none, subjectCode := none,
      score := none, passed := none, periode := none }
  let r1 :=
    match matchScore text.toList with
    | some g =>
      let sc := parseFloatDD g.2.2
      { base with
          subject := some (trimStr (String.mk g.1))
          subjectCode := some (trimStr (String.mk g.2.1))
          score := sc
          passed := some (scoreGE70 sc) }
    | none => base
  match matchPeriode text.toList with
  | some p =>
    { r1 with periode := some ("Periode " ++ String.mk p.1 ++ " " ++ String.mk p.2) }
  | none => r1

/-! # Helper lemmas -/

theorem insDesc_perm (a : Article) : ∀ l, (insDesc a l).Perm (a :: l)
  | [] => List.Perm.refl _
  | b :: bs => by
    unfold insDesc
    split
    · exact ((insDesc_perm a bs).cons b).trans (List.Perm.swap a b bs)
    · exact List.Perm.refl _

theorem sortDesc_perm : ∀ l : List Article, (sortDesc l).Perm l
  | [] => List.Perm.refl _
  | a :: rest => (insDesc_perm a (sortDesc rest)).trans ((sortDesc_perm rest).cons a)

theorem insDesc_pairwise (a : Article) :
    ∀ {l}, l.Pairwise (fun x y => numId y ≤ numId x) →
      (insDesc a l).Pairwise (fun x y => numId y ≤ numId x) := by
  intro l
  induction l with
  | nil => intro _; simp [insDesc]
  | cons b bs ih =>
    intro h
    rw [List.pairwise_cons] at h
    unfold insDesc
    split
    · rename_i hlt
      rw [List.pairwise_cons]
      refine ⟨fun x hx => ?_, ih h.2⟩
      rcases List.mem_cons.mp ((insDesc_perm a bs).mem_iff.mp hx) with hx | hx
      · subst hx; exact le_of_lt hlt
      · exact h.1 x hx
    · rename_i hge
      rw [List.pairwise_cons]
      refine ⟨fun x hx => ?_, List.pairwise_cons.mpr h⟩
      rcases List.mem_cons.mp hx with hx | hx
      · subst hx; omega
      · exact le_trans (h.1 x hx) (by omega)

theorem sortDesc_pairwise : ∀ l : List Article,
    (sortDesc l).Pairwise (fun x y => numId y ≤ numId x)
  | [] => by simp [sortDesc]
  | a :: rest => insDesc_pairwise a (sortDesc_pairwise rest)

theorem mem_insertArticle {b : Article} (m : List Article) (a : Article)
    (h : b ∈ insertArticle m a) : b ∈ m ∨ b = a := by
  unfold insertArticle at h
  split at h
  · exact Or.inl h
  · rcases List.mem_append.mp h with h | h
    · exact Or.inl h
    · exact Or.inr (List.mem_singleton.mp h)

theorem insertArticle_nodupIds (m : List Article) (a : Article)
    (h : (m.map Article.id).Nodup) : ((insertArticle m a).map Article.id).Nodup := by
  unfold insertArticle
  split
  · exact h
  · rename_i hany
    rw [List.map_append]
    simp only [List.map_cons, List.map_nil]
    rw [List.nodup_append]
    refine ⟨h, List.nodup_singleton _, ?_⟩
    intro x hx hx1
    rcases List.mem_map.mp hx with ⟨b, hb, hbid⟩
    rw [List.mem_singleton.mp hx1] at hbid
    exact hany (List.any_eq_true.mpr ⟨b, hb, beq_iff_eq.mpr hbid⟩)

theorem collectStep_nodupIds (m : List Article) (el : Anchor)
    (h : (m.map Article.id).Nodup) : ((collectStep m el).map Article.id).Nodup := by
  unfold collectStep
  rcases hm : newsId el.href.toList with _ | ds
  · simpa using h
  · simp only []
    split
    · exact insertArticle_nodupIds m _ h
    · exact h

theorem foldl_collectStep_nodupIds :
    ∀ (anchors : List Anchor) (m : List Article),
      (m.map Article.id).Nodup → (((anchors.foldl collectStep m)).map Article.id).Nodup
  | [], _, h => h
  | el :: rest, m, h =>
    foldl_collectStep_nodupIds rest _ (collectStep_nodupIds m el h)

theorem collectStep_titles (m : List Article) (el : Anchor)
    (h : ∀ b ∈ m, b.title ≠ "") : ∀ b ∈ collectStep m el, b.title ≠ "" := by
  unfold collectStep
  rcases hm : newsId el.href.toList with _ | ds
  · simpa using h
  · simp only []
    split
    · rename_i ht
      intro b hb
      rcases mem_insertArticle m _ hb with hb | hb
      · exact h b hb
      · subst hb; exact ht
    · exact h

theorem foldl_collectStep_titles :
    ∀ (anchors : List Anchor) (m : List Article),
      (∀ b ∈ m, b.title ≠ "") → ∀ b ∈ anchors.foldl collectStep m, b.title ≠ ""
  | [], _, h => h
  | el :: rest, m, h =>
    foldl_collectStep_titles rest _ (collectStep_titles m el h)

/-! # Claim theorems -/

/-- C2: `isSessionValid` returns true iff a session is stored for the identity
and the current time is strictly before the stored expiry minus the 5-minute
buffer (300 s = 300000 ms); a session created with `expiry = now + 36000 s` is
valid immediately and invalid once `now ≥ expiry - 300 s`; an absent session is
always invalid.  All times are in milliseconds, as in the source. -/
theorem isSessionValid_spec :
    (∀ store uid (now : Int),
        isSessionValid store uid now = true ↔
          ∃ s, lookupS store uid = some s ∧ now < s.expiry - 300000)
    ∧ (∀ store uid (now0 : Int) s, lookupS store uid = some s →
        s.expiry = now0 + 36000 * 1000 →
        isSessionValid store uid now0 = true
        ∧ ∀ t : Int, s.expiry - 300000 ≤ t → isSessionValid store uid t = false)
    ∧ (∀ store uid (now : Int), lookupS store uid = none →
        isSessionValid store uid now = false) := by
  have hc : (5 : Int) * 60 * 1000 = 300000 := by norm_num
  refine ⟨?_, ?_, ?_⟩
  · intro store uid now
    unfold isSessionValid
    rcases h : lookupS store uid with _ | s
    · simp
    · simp only [decide_eq_true_eq, hc]
      constructor
      · intro hlt; exact ⟨s, rfl, hlt⟩
      · rintro ⟨s', hs', hlt⟩
        cases Option.some_inj.mp hs'
        exact hlt
  · intro store uid now0 s hs he
    constructor
    · unfold isSessionValid
      rw [hs]
      simp only [decide_eq_true_eq, hc, he]
      omega
    · intro t ht
      unfold isSessionValid
      rw [hs]
      simp only [decide_eq_false_iff_not, hc, not_lt]
      omega
  · intro store uid now h
    unfold isSessionValid
    rw [h]

/-- C2 witness: a session stored for user `u` with expiry `36000000` (created
at time 0) is valid at time 0 and invalid at `expiry - 300000`. -/
theorem isSessionValid_spec_witness :
    isSessionValid [("u", { cookie := "c", expiry := 36000000 })] "u" 0 = true
    ∧ isSessionValid [("u", { cookie := "c", expiry := 36000000 })] "u" 35700000 = false := by
  have h := isSessionValid_spec.2.1 [("u", { cookie := "c", expiry := 36000000 })] "u" 0
    { cookie := "c", expiry := 36000000 } (by decide) (by norm_num)
  exact ⟨h.1, h.2 35700000 (by norm_num)⟩

/-- C3 (counterexample): two anchors carrying the distinct string ids `"01"`
and `"1"` — both of numeric value 1 — both survive the string-keyed
deduplication, so the output of `parseArticles` is not strictly descending by
the numeric value of the id. -/
theorem parseArticles_strict_desc_cex :
    ¬ List.Pairwise (fun a b : Article => numId b < numId a)
        (parseArticles
          [{ href := "/page/news_detail/01/a", text := "A" },
           { href := "/page/news_detail/1/b", text := "B" }]) := by
  decide

/-- C3 (amended): for every anchor list, `parseArticles` yields entries with
pairwise-distinct string ids (first occurrence wins), every entry contributed
by an anchor has a non-empty visible text as its title, and the output is
sorted descending — non-strictly in general — by the numeric value of the id;
the order is strictly descending whenever no two output entries share the same
numeric id value (which two distinct string ids such as `"01"` and `"1"` can). -/
theorem parseArticles_nodup_sorted :
    ∀ anchors : List Anchor,
      ((parseArticles anchors).map Article.id).Nodup
      ∧ (parseArticles anchors).Pairwise (fun a b => numId b ≤ numId a)
      ∧ (((parseArticles anchors).map numId).Nodup →
          (parseArticles anchors).Pairwise (fun a b => numId b < numId a))
      ∧ (∀ a ∈ parseArticles anchors, a.title ≠ "") := by
  intro anchors
  have hperm := sortDesc_perm (collectArticles anchors)
  refine ⟨?_, sortDesc_pairwise _, ?_, ?_⟩
  · have h1 : ((collectArticles anchors).map Article.id).Nodup :=
      foldl_collectStep_nodupIds anchors [] (by simp)
    exact ((hperm.map Article.id).nodup_iff).mpr h1
  · intro hnod
    have h1 := sortDesc_pairwise (collectArticles anchors)
    have h2 : (parseArticles anchors).Pairwise (fun a b => numId a ≠ numId b) :=
      List.pairwise_map.mp hnod
    exact (h1.and h2).imp (fun h => lt_of_le_of_ne h.1 h.2.symm)
  · intro a ha
    exact foldl_collectStep_titles anchors [] (by simp) a (hperm.mem_iff.mp ha)

/-- C3 witness: on anchors with distinct numeric ids 12 and 7 the amended
theorem yields strict descent, and the single-title conclusion applies to the
concrete first entry. -/
theorem parseArticles_nodup_sorted_witness :
    (parseArticles
        [{ href := "/page/news_detail/12/y", text := "U" },
         { href := "/page/news_detail/7/x", text := "T" }]).Pairwise
      (fun a b => numId b < numId a) :=
  (parseArticles_nodup_sorted
      [{ href := "/page/news_detail/12/y", text := "U" },
       { href := "/page/news_detail/7/x", text := "T" }]).2.2.1 (by decide)

/-- C4: `getNewArticles current seen` is the subsequence of `current` whose ids
are not in `seen`, preserving input order (it is a sublist, its members' ids
avoid `seen`, every current entry with unseen id is kept), and — the embedding
being a pure function — calling it twice with the same inputs yields the same
output. -/
theorem getNewArticles_spec :
    ∀ (current : List Article) (seen : List String),
      (getNewArticles current seen).Sublist current
      ∧ (∀ a ∈ getNewArticles current seen, a.id ∉ seen)
      ∧ (∀ a ∈ current, a.id ∉ seen → a ∈ getNewArticles current seen)
      ∧ getNewArticles current seen = getNewArticles current seen := by
  intro current seen
  refine ⟨List.filter_sublist _, ?_, ?_, rfl⟩
  · intro a ha
    have h := (List.mem_filter.mp ha).2
    simpa using h
  · intro a ha hn
    refine List.mem_filter.mpr ⟨ha, ?_⟩
    simpa using hn

/-- C4 witness: with one current article of id `"3"` and seen set `{"2"}`,
the article is returned (its id is unseen). -/
theorem getNewArticles_spec_witness :
    ({ id := "3", title := "t", url := "u" } : Article) ∈
      getNewArticles [{ id := "3", title := "t", url := "u" }] ["2"] :=
  (getNewArticles_spec [{ id := "3", title := "t", url := "u" }] ["2"]).2.2.1
    _ (List.mem_singleton.mpr rfl) (by decide)

/-- C5: `extractSessionFromResponse` scans the Set-Cookie header values for
the first one carrying a `ci_session` value (first match wins, expressed by
`List.findSome?` over the per-header extraction); if found it returns a
session whose cookie is that value and whose expiry is `now + 36000` seconds
(in ms), and with no such cookie — or no Set-Cookie header at all, as on
failure responses — it returns none (the "login failed" outcome). -/
theorem extractSession_first_match :
    ∀ (cookies : List String) (now : Int),
      extractSessionFromResponse { setCookie := some cookies } now =
        (cookies.findSome? cookieValueOf).map
          (fun v => { cookie := v, expiry := now + 36000 * 1000 })
      ∧ extractSessionFromResponse { setCookie := none } now = none := by
  intro cookies now
  refine ⟨?_, rfl⟩
  show extractLoop cookies now = _
  induction cookies with
  | nil => rfl
  | cons c rest ih =>
    have hc : cookieValueOf c =
        if startsWithL c.data ciSessionLit then (ciSessionFind c.data).map String.mk
        else none := rfl
    rw [List.findSome?_cons, hc]
    unfold extractLoop
    by_cases h : startsWithL c.data ciSessionLit
    · rcases hf : ciSessionFind c.data with _ | v
      · simp [h, hf, ih]
      · simp [h, hf]
    · simp [h, ih]

/-- C6 (counterexample): a transport error during login returns the very same
value (null) as a login response carrying no session cookie, and a transport
error during the exam-page fetch returns the very same value (null) as a fetch
that was redirected to the login page — the caller cannot distinguish the
transport-error case from the "login failed" / no-data case. -/
theorem transport_error_cex :
    login .transport 0 = login (.ok { setCookie := none }) 0
    ∧ fetchExamPage .transport =
        fetchExamPage (.ok (some "https://www.aktuaris.or.id/page/login") []) := by
  exact ⟨rfl, by decide⟩

/-- C6 (amended): transport-level errors during the login exchange and during
authenticated page fetches are caught and returned as the same null sentinel
that signals "login failed" / no data; the returned value does not distinguish
the two cases (the distinction appears only in the logs). -/
theorem transport_error_same_sentinel :
    ∀ (now : Int) (r : Response) (b : List Row) (u : String),
      login .transport now = none
      ∧ fetchExamPage .transport = none
      ∧ (extractSessionFromResponse r now = none →
          login (.ok r) now = none ∧ login (.errResp r) now = none)
      ∧ (occursIn u.toList "/page/login".toList = true →
          fetchExamPage (.ok (some u) b) = none) := by
  intro now r b u
  refine ⟨rfl, rfl, fun h => ⟨h, ?_⟩, fun h => ?_⟩
  · show (match extractSessionFromResponse r now with
          | some s => some s | none => none) = none
    rw [h]
  · simp only [fetchExamPage]
    simp
    exact h

/-- C6 witness: the amended theorem applied at a cookie-less login response and
at the concrete login-page URL. -/
theorem transport_error_same_sentinel_witness :
    login (.ok { setCookie := none }) 0 = none
    ∧ fetchExamPage (.ok (some "https://www.aktuaris.or.id/page/login") []) = none := by
  have h := transport_error_same_sentinel 0 { setCookie := none } []
    "https://www.aktuaris.or.id/page/login"
  exact ⟨(h.2.2.1 rfl).1, h.2.2.2 (by decide)⟩

/-- C7: on extracted document text, the first match of the subject pattern
assigns subject, subjectCode and score, with `passed = (score >= 70)` computed
exactly when the pattern matched; the first match of the period pattern yields
the reassembled "Periode [numeral] [year]"; the concrete spec examples hold
(score 70.00 passes, 69.99 does not, "Periode III Tahun 2025" reassembles to
"Periode III 2025"); absence of either pattern leaves the fields null. -/
theorem extractExamResult_spec :
    ((extractExamResult "CF2-Probabilitas dan Statistika (CF2) = 70.00").subjectCode = some "CF2"
      ∧ (extractExamResult "CF2-Probabilitas dan Statistika (CF2) = 70.00").score = some 70
      ∧ (extractExamResult "CF2-Probabilitas dan Statistika (CF2) = 70.00").passed = some true)
    ∧ ((extractExamResult "CF2-Probabilitas dan Statistika (CF2) = 69.99").score
          = some (6999 / 100 : Rat)
      ∧ (extractExamResult "CF2-Probabilitas dan Statistika (CF2) = 69.99").passed = some false)
    ∧ (extractExamResult "Hasil Ujian Periode III Tahun 2025").periode = some "Periode III 2025"
    ∧ (∀ text, matchScore text.toList = none →
        (extractExamResult text).subject = none
        ∧ (extractExamResult text).subjectCode = none
        ∧ (extractExamResult text).score = none
        ∧ (extractExamResult text).passed = none)
    ∧ (∀ text g, matchScore text.toList = some g →
        (extractExamResult text).subject = some (trimStr (String.mk g.1))
        ∧ (extractExamResult text).subjectCode = some (trimStr (String.mk g.2.1))
        ∧ (extractExamResult text).score = parseFloatDD g.2.2
        ∧ (extractExamResult text).passed = some (scoreGE70 (parseFloatDD g.2.2)))
    ∧ (∀ text, matchPeriode text.toList = none → (extractExamResult text).periode = none)
    ∧ (∀ text p, matchPeriode text.toList = some p →
        (extractExamResult text).periode =
          some ("Periode " ++ String.mk p.1 ++ " " ++ String.mk p.2)) := by
  have hScoreSome : ∀ (text : String) g, matchScore text.data = some g →
      (extractExamResult text).subject = some (trimStr (String.mk g.1))
      ∧ (extractExamResult text).subjectCode = some (trimStr (String.mk g.2.1))
      ∧ (extractExamResult text).score = parseFloatDD g.2.2
      ∧ (extractExamResult text).passed = some (scoreGE70 (parseFloatDD g.2.2)) := by
    intro text g h
    rcases hp : matchPeriode text.data with _ | p <;>
      simp [extractExamResult, h, hp]
  have hScoreNone : ∀ text : String, matchScore text.data = none →
      (extractExamResult text).subject = none
      ∧ (extractExamResult text).subjectCode = none
      ∧ (extractExamResult text).score = none
      ∧ (extractExamResult text).passed = none := by
    intro text h
    rcases hp : matchPeriode text.data with _ | p <;>
      simp [extractExamResult, h, hp]
  have hPerSome : ∀ (text : String) p, matchPeriode text.data = some p →
      (extractExamResult text).periode =
        some ("Periode " ++ String.mk p.1 ++ " " ++ String.mk p.2) := by
    intro text p h
    rcases hs : matchScore text.data with _ | g <;>
      simp [extractExamResult, h, hs]
  have hPerNone : ∀ text : String, matchPeriode text.data = none →
      (extractExamResult text).periode = none := by
    intro text h
    rcases hs : matchScore text.data with _ | g <;>
      simp [extractExamResult, h, hs]
  have hm1 : matchScore ("CF2-Probabilitas dan Statistika (CF2) = 70.00").data =
      some ("CF2-Probabilitas dan Statistika ".toList, "CF2".toList, "70.00".toList) := by
    decide
  have hm2 : matchScore ("CF2-Probabilitas dan Statistika (CF2) = 69.99").data =
      some ("CF2-Probabilitas dan Statistika ".toList, "CF2".toList, "69.99".toList) := by
    decide
  have hm3 : matchPeriode ("Hasil Ujian Periode III Tahun 2025").data =
      some ("III".toList, "2025".toList) := by decide
  have hq1 : parseFloatDD "70.00".toList =
      some (((70 : Nat) : Rat) + ((0 : Nat) : Rat) / (10 : Rat) ^ (2 : Nat)) := rfl
  have hq2 : parseFloatDD "69.99".toList =
      some (((69 : Nat) : Rat) + ((99 : Nat) : Rat) / (10 : Rat) ^ (2 : Nat)) := rfl
  refine ⟨⟨?_, ?_, ?_⟩, ⟨?_, ?_⟩, ?_,
    fun text h => hScoreNone text h, fun text g h => hScoreSome text g h,
    fun text h => hPerNone text h, fun text p h => hPerSome text p h⟩
  · exact ((hScoreSome _ _ hm1).2.1).trans (by decide)
  · refine ((hScoreSome _ _ hm1).2.2.1).trans ?_
    rw [hq1]
    norm_num
  · refine ((hScoreSome _ _ hm1).2.2.2).trans ?_
    rw [show scoreGE70 (parseFloatDD "70.00".toList) =
          decide ((70 : Rat) ≤ ((70 : Nat) : Rat) + ((0 : Nat) : Rat) / (10 : Rat) ^ (2 : Nat))
        from by rw [hq1]; rfl]
    simp only [Option.some_inj, decide_eq_true_eq]
    norm_num
  · refine ((hScoreSome _ _ hm2).2.2.1).trans ?_
    rw [hq2]
    norm_num
  · refine ((hScoreSome _ _ hm2).2.2.2).trans ?_
    rw [show scoreGE70 (parseFloatDD "69.99".toList) =
          decide ((70 : Rat) ≤ ((69 : Nat) : Rat) + ((99 : Nat) : Rat) / (10 : Rat) ^ (2 : Nat))
        from by rw [hq2]; rfl]
    simp only [Option.some_inj, decide_eq_false_iff_not]
    norm_num
  · exact (hPerSome _ _ hm3).trans (by decide)

/-- C7 witness: a text matching neither pattern leaves all extracted fields
null. -/
theorem extractExamResult_spec_witness :
    (extractExamResult "hello").subject = none
    ∧ (extractExamResult "hello").periode = none := by
  have h := extractExamResult_spec
  exact ⟨(h.2.2.2.1 "hello" (by decide)).1, h.2.2.2.2.2.1 "hello" (by decide)⟩

theorem rowToExam_inv {row : Row} {e : Exam} (h : rowToExam row = some e) :
    6 ≤ row.length
    ∧ e.kode = trimStr (cellAt row 0).text
    ∧ e.kode ≠ "" ∧ e.kode ≠ "KODE"
    ∧ e.actions = (cellAt row 5).links.filterMap actionOf := by
  unfold rowToExam at h
  by_cases h6 : 6 ≤ row.length
  · rw [if_pos h6] at h
    by_cases hk : trimStr (cellAt row 0).text ≠ "" ∧ trimStr (cellAt row 0).text ≠ "KODE"
    · rw [if_pos hk] at h
      cases Option.some_inj.mp h
      exact ⟨h6, rfl, hk.1, hk.2, rfl⟩
    · rw [if_neg hk] at h
      exact absurd h (by simp)
  · rw [if_neg h6] at h
    exact absurd h (by simp)

/-- C9: every action kept on a parsed ExamRecord has a label containing none of
the denylisted substrings "detail", "cetak undangan", "cetak kartu ujian"
(case-insensitive containment), and a row whose trimmed first column is empty
or equals the header literal "KODE" produces no record at all. -/
theorem parseExamTable_filters :
    ∀ rows : List Row,
      (∀ e ∈ parseExamTable rows, ∀ a ∈ e.actions,
        ∀ ex ∈ excludeActions, occursIn (lowerStr a.text).toList ex.toList = false)
      ∧ (∀ row : Row,
          trimStr (cellAt row 0).text = "" ∨ trimStr (cellAt row 0).text = "KODE" →
          rowToExam row = none) := by
  intro rows
  constructor
  · intro e he a ha ex hex
    rcases List.mem_filterMap.mp he with ⟨row, _, hrow⟩
    rcases rowToExam_inv hrow with ⟨-, -, -, -, hact⟩
    rw [hact] at ha
    rcases List.mem_filterMap.mp ha with ⟨l, _, hl⟩
    unfold actionOf at hl
    split at hl
    · exact absurd hl (by simp)
    · rename_i hguard
      cases Option.some_inj.mp hl
      rw [List.any_eq_true] at hguard
      push_neg at hguard
      have hx := hguard ex hex
      simpa using hx
  · intro row hk
    unfold rowToExam
    by_cases h6 : 6 ≤ row.length
    · rw [if_pos h6, if_neg (by tauto)]
    · rw [if_neg h6]

/-- C9 witness: a concrete row whose actions column holds the links
" Detail ", "Cetak Undangan" and "Lihat Hasil" keeps only "Lihat Hasil", whose
label does not contain "detail"; and a concrete header row ("KODE") produces
no record. -/
theorem parseExamTable_filters_witness :
    occursIn (lowerStr ("Lihat Hasil")).toList ("detail").toList = false
    ∧ rowToExam
        [{ text := "KODE", links := [] }, { text := "P", links := [] },
         { text := "C", links := [] }, { text := "H", links := [] },
         { text := "S", links := [] }, { text := "A", links := [] }] = none := by
  constructor
  · exact (parseExamTable_filters
        [[{ text := "K1", links := [] }, { text := "P", links := [] },
          { text := "C", links := [] }, { text := "H", links := [] },
          { text := "S", links := [] },
          { text := "A", links := [{ text := " Detail ", href := some "/d" },
                                   { text := "Cetak Undangan", href := none },
                                   { text := "Lihat Hasil", href := some "/h" }] }]]).1
      { kode := "K1", periode := "P", kota := "C", hasilText := "H", hasilLink := none,
        status := "S", actions := [{ text := "Lihat Hasil", link := some "/h" }] }
      (by decide) { text := "Lihat Hasil", link := some "/h" } (by decide)
      "detail" (by decide)
  · exact (parseExamTable_filters []).2
      [{ text := "KODE", links := [] }, { text := "P", links := [] },
       { text := "C", links := [] }, { text := "H", links := [] },
       { text := "S", links := [] }, { text := "A", links := [] }]
      (Or.inr (by decide))

/-- C10: `parseExamTable` builds a record only from rows having at least 6
cells: any row with fewer than 6 cells yields nothing, and dropping all such
rows from the input leaves the output unchanged. -/
theorem rowToExam_min_cells :
    (∀ row : Row, row.length < 6 → rowToExam row = none)
    ∧ ∀ rows : List Row,
        parseExamTable rows = parseExamTable (rows.filter (fun r => 6 ≤ r.length)) := by
  have h1 : ∀ row : Row, row.length < 6 → rowToExam row = none := by
    intro row h
    unfold rowToExam
    rw [if_neg (by omega)]
  refine ⟨h1, ?_⟩
  intro rows
  induction rows with
  | nil => rfl
  | cons r rest ih =>
    by_cases h : 6 ≤ r.length
    · have hf : (r :: rest).filter (fun r => decide (6 ≤ r.length)) =
          r :: rest.filter (fun r => decide (6 ≤ r.length)) := by
        simp [List.filter_cons, h]
      rw [hf]
      simp only [parseExamTable] at ih ⊢
      cases hre : rowToExam r <;> simp [List.filterMap_cons, hre, ih]
    · have hf : (r :: rest).filter (fun r => decide (6 ≤ r.length)) =
          rest.filter (fun r => decide (6 ≤ r.length)) := by
        simp [List.filter_cons, h]
      rw [hf]
      simp only [parseExamTable] at ih ⊢
      rw [List.filterMap_cons, h1 r (by omega)]
      exact ih

/-- C10 witness: a concrete 5-cell row (even one with a plausible code in its
first column) produces no record. -/
theorem rowToExam_min_cells_witness :
    rowToExam
      [{ text := "K1", links := [] }, { text := "P", links := [] },
       { text := "C", links := [] }, { text := "H", links := [] },
       { text := "S", links := [] }] = none :=
  rowToExam_min_cells.1
    [{ text := "K1", links := [] }, { text := "P", links := [] },
     { text := "C", links := [] }, { text := "H", links := [] },
     { text := "S", links := [] }] (by decide)

theorem foldl_scrapeStep_count (fetch : Nat → Option (List Anchor)) :
    ∀ (L : List Nat) (acc : List Article × Nat),
      (L.foldl (scrapeStep fetch) acc).2 = acc.2 + L.length
  | [], acc => by simp
  | o :: L, acc => by
    rw [List.foldl_cons, foldl_scrapeStep_count fetch L]
    unfold scrapeStep
    cases hf : fetch o <;> simp <;> omega

theorem foldl_insertArticle_nodupIds :
    ∀ (L m : List Article),
      (m.map Article.id).Nodup → ((L.foldl insertArticle m).map Article.id).Nodup
  | [], _, h => h
  | a :: L, m, h => foldl_insertArticle_nodupIds L _ (insertArticle_nodupIds m a h)

theorem foldl_scrapeStep_nodupIds (fetch : Nat → Option (List Anchor)) :
    ∀ (L : List Nat) (acc : List Article × Nat),
      (acc.1.map Article.id).Nodup → ((L.foldl (scrapeStep fetch) acc).1.map Article.id).Nodup
  | [], _, h => h
  | o :: L, acc, h => by
    rw [List.foldl_cons]
    apply foldl_scrapeStep_nodupIds fetch L
    unfold scrapeStep
    cases hf : fetch o
    · simpa using h
    · simpa using foldl_insertArticle_nodupIds _ _ h

theorem mem_insertArticle_self (m : List Article) (a : Article) :
    ∃ b ∈ insertArticle m a, b.id = a.id := by
  unfold insertArticle
  split
  · rename_i h
    rcases List.any_eq_true.mp h with ⟨b, hb, hid⟩
    exact ⟨b, hb, by simpa using hid⟩
  · exact ⟨a, List.mem_append_right _ (List.mem_singleton.mpr rfl), rfl⟩

theorem insertArticle_mem_mono {b : Article} (m : List Article) (a : Article)
    (h : b ∈ m) : b ∈ insertArticle m a := by
  unfold insertArticle
  split
  · exact h
  · exact List.mem_append_left _ h

theorem foldl_insertArticle_mono {b : Article} :
    ∀ (L m : List Article), b ∈ m → b ∈ L.foldl insertArticle m
  | [], _, h => h
  | a :: L, m, h => foldl_insertArticle_mono L _ (insertArticle_mem_mono m a h)

theorem foldl_insertArticle_of_mem {a : Article} :
    ∀ (L m : List Article), a ∈ L → ∃ b ∈ L.foldl insertArticle m, b.id = a.id
  | x :: L, m, h => by
    rcases List.mem_cons.mp h with rfl | h
    · rcases mem_insertArticle_self m a with ⟨b, hb, hid⟩
      exact ⟨b, foldl_insertArticle_mono L _ hb, hid⟩
    · exact foldl_insertArticle_of_mem L _ h

theorem foldl_scrapeStep_mem_mono {b : Article} (fetch : Nat → Option (List Anchor)) :
    ∀ (L : List Nat) (acc : List Article × Nat),
      b ∈ acc.1 → b ∈ (L.foldl (scrapeStep fetch) acc).1
  | [], _, h => h
  | o :: L, acc, h => by
    rw [List.foldl_cons]
    apply foldl_scrapeStep_mem_mono fetch L
    unfold scrapeStep
    cases hf : fetch o
    · simpa using h
    · simpa using foldl_insertArticle_mono _ _ h

theorem foldl_scrapeStep_collects (fetch : Nat → Option (List Anchor))
    {o : Nat} {page : List Anchor} {a : Article} :
    ∀ (L : List Nat) (acc : List Article × Nat),
      o ∈ L → fetch o = some page → a ∈ parseArticles page →
      ∃ b ∈ (L.foldl (scrapeStep fetch) acc).1, b.id = a.id
  | o' :: L, acc, hin, hf, ha => by
    rw [List.foldl_cons]
    rcases List.mem_cons.mp hin with rfl | hin
    · have h1 : ∃ b ∈ (scrapeStep fetch acc o).1, b.id = a.id := by
        unfold scrapeStep
        rw [hf]
        exact foldl_insertArticle_of_mem _ _ ha
      rcases h1 with ⟨b, hb, hid⟩
      exact ⟨b, foldl_scrapeStep_mem_mono fetch L _ hb, hid⟩
    · exact foldl_scrapeStep_collects fetch L _ hin hf ha

/-- C8: a full backfill issues exactly 53 page fetches, one per offset of the
schedule (an offset is scheduled iff it is a multiple of 5 that is at most
260); offset 0 maps to the bare listing URL and nonzero offsets append the
offset as a path segment; a failing page fetch is skipped without aborting the
rest — every article parsed from any successful page is still represented (by
id) in the final collection, which is deduplicated by id and sorted descending
(non-strictly) by numeric id. -/
theorem scrapeAll_spec :
    ∀ fetch : Nat → Option (List Anchor),
      (scrapeAll fetch).2 = 53
      ∧ (∀ o : Nat, o ∈ offsets ↔ o % PAGE_STEP = 0 ∧ o ≤ MAX_OFFSET)
      ∧ newsPageUrl 0 = "https://www.aktuaris.or.id/page/news_nextpage/"
      ∧ newsPageUrl 55 = "https://www.aktuaris.or.id/page/news_nextpage/55"
      ∧ ((scrapeAll fetch).1.map Article.id).Nodup
      ∧ (scrapeAll fetch).1.Pairwise (fun a b => numId b ≤ numId a)
      ∧ (∀ o page a, o ∈ offsets → fetch o = some page → a ∈ parseArticles page →
          ∃ b ∈ (scrapeAll fetch).1, b.id = a.id) := by
  intro fetch
  refine ⟨?_, ?_, by decide, by decide, ?_, sortDesc_pairwise _, ?_⟩
  · show (offsets.foldl (scrapeStep fetch) ([], 0)).2 = 53
    rw [foldl_scrapeStep_count]
    decide
  · intro o
    simp only [offsets, MAX_OFFSET, PAGE_STEP, List.mem_map, List.mem_range]
    constructor
    · rintro ⟨i, hi, rfl⟩
      omega
    · rintro ⟨h5, hle⟩
      exact ⟨o / 5, by omega, by omega⟩
  · have h := foldl_scrapeStep_nodupIds fetch offsets ([], 0) (by simp)
    exact ((sortDesc_perm _).map Article.id).nodup_iff.mpr h
  · intro o page a ho hf ha
    rcases foldl_scrapeStep_collects fetch offsets ([], 0) ho hf ha with ⟨b, hb, hid⟩
    exact ⟨b, (sortDesc_perm _).mem_iff.mpr hb, hid⟩

/-- C8 witness: with a fetch environment failing at offset 50 but succeeding
elsewhere, the article found on the page at offset 55 is still represented in
the final collection. -/
theorem scrapeAll_spec_witness :
    ∃ b ∈ (scrapeAll (fun o =>
        if o = 50 then none
        else if o = 55 then some [{ href := "/page/news_detail/9/x", text := "T" }]
        else some [])).1,
      b.id = ({ id := "9", title := "T",
                url := "https://www.aktuaris.or.id/page/news_detail/9/x" } : Article).id :=
  (scrapeAll_spec (fun o =>
      if o = 50 then none
      else if o = 55 then some [{ href := "/page/news_detail/9/x", text := "T" }]
      else some [])).2.2.2.2.2.2 55 [{ href := "/page/news_detail/9/x", text := "T" }]
    { id := "9", title := "T", url := "https://www.aktuaris.or.id/page/news_detail/9/x" }
    (by decide) (by decide) (by decide)

theorem lookupS_delS (store : List (String × Session)) (uid : String) :
    lookupS (delS store uid) uid = none := by
  induction store with
  | nil => rfl
  | cons p rest ih =>
    by_cases h : p.1 = uid
    · simpa [delS, List.filter_cons, h] using ih
    · have hstep : delS (p :: rest) uid = p :: delS rest uid := by
        simp [delS, List.filter_cons, h]
      rw [hstep]
      show (if p.1 = uid then some p.2 else lookupS (delS rest uid) uid) = none
      rw [if_neg h]
      exact ih

theorem isSessionValid_delS (store : List (String × Session)) (uid : String) (now : Int) :
    isSessionValid (delS store uid) uid now = false := by
  unfold isSessionValid
  rw [lookupS_delS]

theorem isSessionValid_lookup {store : List (String × Session)} {uid : String} {now : Int}
    (h : isSessionValid store uid now = true) : ∃ s, lookupS store uid = some s := by
  unfold isSessionValid at h
  rcases he : lookupS store uid with _ | s
  · rw [he] at h
    exact absurd h (by simp)
  · exact ⟨s, rfl⟩

theorem getSessionM_valid (env : MonEnv) (now : Int) (uid : String) (st : MonSt)
    (h : isSessionValid st.store uid now = true) :
    ∃ s, lookupS st.store uid = some s ∧ getSessionM env now uid st = (some s.cookie, st) := by
  rcases isSessionValid_lookup h with ⟨s, hs⟩
  refine ⟨s, hs, ?_⟩
  unfold getSessionM
  rw [if_pos h, hs]
  rfl

theorem getSessionM_login_some (env : MonEnv) (now : Int) (uid : String) (st : MonSt)
    (sess : Session) (h : isSessionValid st.store uid now = false)
    (hl : env.loginOut st.logins = some sess) :
    getSessionM env now uid st =
      (some sess.cookie,
       { store := setS st.store uid sess, logins := st.logins + 1, fetches := st.fetches }) := by
  unfold getSessionM loginCall
  rw [if_neg (by simp [h])]
  simp only [hl]

theorem getSessionM_login_none (env : MonEnv) (now : Int) (uid : String) (st : MonSt)
    (h : isSessionValid st.store uid now = false)
    (hl : env.loginOut st.logins = none) :
    getSessionM env now uid st = (none, { st with logins := st.logins + 1 }) := by
  unfold getSessionM loginCall
  rw [if_neg (by simp [h])]
  simp only [hl]

theorem fetchPageCall_none (env : MonEnv) (st : MonSt) (hf : env.fetchOut st.fetches = none) :
    fetchPageCall env st = (none, { st with fetches := st.fetches + 1 }) := by
  unfold fetchPageCall
  rw [hf]

/-- C1: when every authenticated page fetch reports the login redirect
(returns null), `fetchExamListForUser` fails with null after at most one
re-authentication retry: for every starting state it performs at most two
login calls and at most two page fetches and returns null, and from a fresh
state with always-succeeding authentication it performs exactly two login
calls (the initial one plus one retry) and exactly two page fetches, then
returns null — no further retry. -/
theorem fetchExamList_retry_once :
    ∀ (env : MonEnv) (uid : String) (now : Int),
      (∀ n, env.fetchOut n = none) →
      ((∀ st : MonSt,
          (fetchExamListForUserM env now uid st).1 = none
          ∧ (fetchExamListForUserM env now uid st).2.logins ≤ st.logins + 2
          ∧ (fetchExamListForUserM env now uid st).2.fetches ≤ st.fetches + 2)
       ∧ ((∀ n, (env.loginOut n).isSome = true) →
          (fetchExamListForUserM env now uid { store := [], logins := 0, fetches := 0 }).1 = none
          ∧ (fetchExamListForUserM env now uid
              { store := [], logins := 0, fetches := 0 }).2.logins = 2
          ∧ (fetchExamListForUserM env now uid
              { store := [], logins := 0, fetches := 0 }).2.fetches = 2)) := by
  intro env uid now hf
  constructor
  · intro st
    by_cases hv : isSessionValid st.store uid now = true
    · rcases getSessionM_valid env now uid st hv with ⟨s, hs, hg⟩
      have hp1 := fetchPageCall_none env st (hf st.fetches)
      have hv3 : isSessionValid
          (MonSt.mk (delS st.store uid) st.logins (st.fetches + 1)).store uid now = false :=
        isSessionValid_delS _ _ _
      cases hl2 : env.loginOut st.logins with
      | none =>
        have hg2 := getSessionM_login_none env now uid
          (MonSt.mk (delS st.store uid) st.logins (st.fetches + 1)) hv3 hl2
        refine ⟨?_, ?_, ?_⟩ <;>
          simp [fetchExamListForUserM, clearSessionM, hg, hp1, hg2]
      | some sess2 =>
        have hg2 := getSessionM_login_some env now uid
          (MonSt.mk (delS st.store uid) st.logins (st.fetches + 1)) sess2 hv3 hl2
        have hp2 := fetchPageCall_none env
          (MonSt.mk (setS (delS st.store uid) uid sess2) (st.logins + 1) (st.fetches + 1))
          (hf _)
        refine ⟨?_, ?_, ?_⟩ <;>
          simp [fetchExamListForUserM, clearSessionM, hg, hp1, hg2, hp2]
    · have hv' : isSessionValid st.store uid now = false := by simpa using hv
      cases hl1 : env.loginOut st.logins with
      | none =>
        have hg1 := getSessionM_login_none env now uid st hv' hl1
        refine ⟨?_, ?_, ?_⟩ <;>
          simp [fetchExamListForUserM, hg1]
      | some sess =>
        have hg1 := getSessionM_login_some env now uid st sess hv' hl1
        have hp1 := fetchPageCall_none env
          (MonSt.mk (setS st.store uid sess) (st.logins + 1) st.fetches) (hf _)
        have hv3 : isSessionValid
            (MonSt.mk (delS (setS st.store uid sess) uid) (st.logins + 1)
              (st.fetches + 1)).store uid now = false :=
          isSessionValid_delS _ _ _
        cases hl2 : env.loginOut (st.logins + 1) with
        | none =>
          have hg2 := getSessionM_login_none env now uid
            (MonSt.mk (delS (setS st.store uid sess) uid) (st.logins + 1) (st.fetches + 1))
            hv3 hl2
          refine ⟨?_, ?_, ?_⟩ <;>
            simp [fetchExamListForUserM, clearSessionM, hg1, hp1, hg2]
        | some sess2 =>
          have hg2 := getSessionM_login_some env now uid
            (MonSt.mk (delS (setS st.store uid sess) uid) (st.logins + 1) (st.fetches + 1))
            sess2 hv3 hl2
          have hp2 := fetchPageCall_none env
            (MonSt.mk (setS (delS (setS st.store uid sess) uid) uid sess2) (st.logins + 2)
              (st.fetches + 1)) (hf _)
          refine ⟨?_, ?_, ?_⟩ <;>
            simp [fetchExamListForUserM, clearSessionM, hg1, hp1, hg2, hp2]
  · intro hl
    rcases Option.isSome_iff_exists.mp (hl 0) with ⟨s0, hl0⟩
    rcases Option.isSome_iff_exists.mp (hl 1) with ⟨s1, hl1⟩
    have hv0 : isSessionValid ([] : List (String × Session)) uid now = false := rfl
    have hg1 := getSessionM_login_some env now uid
      (MonSt.mk [] 0 0) s0 hv0 hl0
    have hp1 := fetchPageCall_none env (MonSt.mk (setS [] uid s0) 1 0) (hf _)
    have hv3 : isSessionValid
        (MonSt.mk (delS (setS [] uid s0) uid) 1 1).store uid now = false :=
      isSessionValid_delS _ _ _
    have hg2 := getSessionM_login_some env now uid
      (MonSt.mk (delS (setS [] uid s0) uid) 1 1) s1 hv3 hl1
    have hp2 := fetchPageCall_none env
      (MonSt.mk (setS (delS (setS [] uid s0) uid) uid s1) 2 1) (hf _)
    refine ⟨?_, ?_, ?_⟩ <;>
      simp [fetchExamListForUserM, clearSessionM, hg1, hp1, hg2, hp2]

/-- C1 witness: the concrete environment whose fetches all report the login
redirect and whose logins all succeed yields null with exactly two login calls
and two fetches from a fresh state. -/
theorem fetchExamList_retry_once_witness :
    (fetchExamListForUserM
        { loginOut := fun _ => some { cookie := "c", expiry := 0 }, fetchOut := fun _ => none }
        0 "u" { store := [], logins := 0, fetches := 0 }).1 = none
    ∧ (fetchExamListForUserM
        { loginOut := fun _ => some { cookie := "c", expiry := 0 }, fetchOut := fun _ => none }
        0 "u" { store := [], logins := 0, fetches := 0 }).2.logins = 2
    ∧ (fetchExamListForUserM
        { loginOut := fun _ => some { cookie := "c", expiry := 0 }, fetchOut := fun _ => none }
        0 "u" { store := [], logins := 0, fetches := 0 }).2.fetches = 2 :=
  (fetchExamList_retry_once
      { loginOut := fun _ => some { cookie := "c", expiry := 0 }, fetchOut := fun _ => none }
      "u" 0 (fun _ => rfl)).2 (fun _ => rfl)

end PAI
